import Mathlib

/-!
# Verification of the SpaceStation cargo backend

Shallow embedding of `backend.py` (3D bin packing, placement planner,
retrieval-obstruction analysis, lifecycle tracking) and proofs about it.
Coordinates and masses are modelled as rationals (`ℚ`), calendar dates as
integers (`ℤ`, order-isomorphic to ISO date strings as compared by SQL),
and SQL rows of the `items` table as Lean structures.
-/

namespace SpaceStation

/-! ## Geometry primitives

A box is stored the way the Python dictionaries store it: origin corner
`(x, y, z)` and extents `(width, height, depth)`.  Axis mapping follows the
source: `x` is W (width), `y` is H (height), `z` is D (depth). -/

structure Box where
  x : ℚ
  y : ℚ
  z : ℚ
  width : ℚ
  height : ℚ
  depth : ℚ
deriving DecidableEq, Repr

/-- The open interiors of two boxes intersect: on every axis the maximum of
the two starts is strictly below the minimum of the two ends. -/
def Overlaps (a b : Box) : Prop :=
  max a.x b.x < min (a.x + a.width) (b.x + b.width) ∧
  max a.y b.y < min (a.y + a.height) (b.y + b.height) ∧
  max a.z b.z < min (a.z + a.depth) (b.z + b.depth)

instance (a b : Box) : Decidable (Overlaps a b) := by
  unfold Overlaps; infer_instance

/-- Two boxes have disjoint interiors. -/
def NonOverlapping (a b : Box) : Prop := ¬ Overlaps a b

instance (a b : Box) : Decidable (NonOverlapping a b) := by
  unfold NonOverlapping; infer_instance

/-- Box `b` is contained (componentwise, closed) in box `f`. -/
def SubBox (b f : Box) : Prop :=
  f.x ≤ b.x ∧ b.x + b.width ≤ f.x + f.width ∧
  f.y ≤ b.y ∧ b.y + b.height ≤ f.y + f.height ∧
  f.z ≤ b.z ∧ b.z + b.depth ≤ f.z + f.depth

instance (b f : Box) : Decidable (SubBox b f) := by
  unfold SubBox; infer_instance

/-! ## The packer: `MaximalRectangleBinPack` -/

/-- `MaximalRectangleBinPack.score_by_priority`:
`rect['z'] * 0.5 + rect['x'] * 0.3 + rect['y'] * 0.2 - priority * 0.1`. -/
def scoreByPriority (rect : Box) (priority : ℚ) : ℚ :=
  rect.z * 0.5 + rect.x * 0.3 + rect.y * 0.2 - priority * 0.1

/-- The fit test of `insert`:
`free_rect['width'] >= item_width and free_rect['height'] >= item_height and
free_rect['depth'] >= item_depth`. -/
def FitsRect (f : Box) (iw ih idp : ℚ) : Prop :=
  iw ≤ f.width ∧ ih ≤ f.height ∧ idp ≤ f.depth

instance (f : Box) (iw ih idp : ℚ) : Decidable (FitsRect f iw ih idp) := by
  unfold FitsRect; infer_instance

/-- One step of the best-candidate scan in `insert`: the current best is
replaced exactly when the rectangle fits and its score is strictly smaller
(`if score < best_score`), with `best_score` starting at `inf` (`none`). -/
def StrictlyBetter (p : ℚ) (f : Box) : Option (ℕ × Box) → Prop
  | none => True
  | some (_, g) => scoreByPriority f p < scoreByPriority g p

instance (p : ℚ) (f : Box) (best : Option (ℕ × Box)) :
    Decidable (StrictlyBetter p f best) := by
  cases best with
  | none => exact isTrue trivial
  | some b => unfold StrictlyBetter; infer_instance

/-- The `for i, free_rect in enumerate(self.free_rectangles)` scan of
`insert`, carrying the running index and the current best candidate. -/
def selectAux (iw ih idp p : ℚ) : ℕ → Option (ℕ × Box) → List Box → Option (ℕ × Box)
  | _, best, [] => best
  | i, best, f :: rest =>
    if FitsRect f iw ih idp ∧ StrictlyBetter p f best then
      selectAux iw ih idp p (i + 1) (some (i, f)) rest
    else
      selectAux iw ih idp p (i + 1) best rest

/-- The candidate-selection phase of `MaximalRectangleBinPack.insert`:
returns the index and (a copy of) the chosen free rectangle, or `none`. -/
def selectBest (free : List Box) (iw ih idp p : ℚ) : Option (ℕ × Box) :=
  selectAux iw ih idp p 0 none free

/-- Residual of the guillotine split along W (appended first in the source). -/
def resW (f : Box) (iw ih idp : ℚ) : Box :=
  ⟨f.x + iw, f.y, f.z, f.width - iw, ih, idp⟩

/-- Residual of the guillotine split along H (appended second). -/
def resH (f : Box) (_iw ih idp : ℚ) : Box :=
  ⟨f.x, f.y + ih, f.z, f.width, f.height - ih, idp⟩

/-- Residual of the guillotine split along D (appended third). -/
def resD (f : Box) (_iw _ih idp : ℚ) : Box :=
  ⟨f.x, f.y, f.z + idp, f.width, f.height, f.depth - idp⟩

/-- State of one `MaximalRectangleBinPack` instance. -/
structure Packer where
  width : ℚ
  height : ℚ
  depth : ℚ
  used_rectangles : List Box
  free_rectangles : List Box
deriving DecidableEq, Repr

namespace Packer

/-- `MaximalRectangleBinPack.__init__`. -/
def init (width height depth : ℚ) : Packer :=
  ⟨width, height, depth, [], [⟨0, 0, 0, width, height, depth⟩]⟩

/-- `MaximalRectangleBinPack.insert`.  The source appends the three split
residuals only inside
`if remaining_width > 0 and remaining_height > 0 and remaining_depth > 0:`
and then deletes the chosen free rectangle by index. -/
def insert (pk : Packer) (iw ih idp p : ℚ) : Option (Box × Packer) :=
  match selectBest pk.free_rectangles iw ih idp p with
  | none => none
  | some (i, best) =>
    let newRect : Box := ⟨best.x, best.y, best.z, iw, ih, idp⟩
    let residuals : List Box :=
      if 0 < best.width - iw ∧ 0 < best.height - ih ∧ 0 < best.depth - idp then
        [resW best iw ih idp, resH best iw ih idp, resD best iw ih idp]
      else []
    some (newRect,
      { pk with
        used_rectangles := pk.used_rectangles ++ [newRect]
        free_rectangles := (pk.free_rectangles ++ residuals).eraseIdx i })

end Packer

/-- Specification of the `insert` scan: `none` exactly when no free
rectangle fits; otherwise the fitting rectangle of minimal score, the
earliest index winning ties (the scan replaces the best only on a strictly
smaller score). -/
def SelectSpec (iw ih idp p : ℚ) (l : List Box) : Option (ℕ × Box) → Prop
  | none => ∀ g ∈ l, ¬ FitsRect g iw ih idp
  | some (i, f) =>
      l[i]? = some f ∧ FitsRect f iw ih idp ∧
      (∀ g ∈ l, FitsRect g iw ih idp → scoreByPriority f p ≤ scoreByPriority g p) ∧
      (∀ j, j < i → ∀ g, l[j]? = some g → FitsRect g iw ih idp →
        scoreByPriority f p < scoreByPriority g p)

/-- An abstract insertion sequence against one packer: each entry is the
oriented extents and the priority passed to `insert`. -/
structure InsOp where
  iw : ℚ
  ih : ℚ
  idp : ℚ
  p : ℚ
deriving DecidableEq, Repr

/-- The item dimensions handed to an insertion are positive (data-model
assumption on items: `dimensions (w, d, h) positive reals`). -/
def PosDims (op : InsOp) : Prop := 0 < op.iw ∧ 0 < op.ih ∧ 0 < op.idp

instance (op : InsOp) : Decidable (PosDims op) := by
  unfold PosDims; infer_instance

/-- One call of `insert`; a failed insertion leaves the packer unchanged
(the source returns `None` before mutating anything). -/
def stepPacker (pk : Packer) (op : InsOp) : Packer :=
  match pk.insert op.iw op.ih op.idp op.p with
  | some (_, pk') => pk'
  | none => pk

/-- A sequence of insertions against one packer. -/
def runPacker (pk : Packer) (ops : List InsOp) : Packer :=
  ops.foldl stepPacker pk

/-- The invariant carried through insertions: all used and free rectangles
of the packer have pairwise disjoint interiors. -/
def PackInv (pk : Packer) : Prop :=
  List.Pairwise NonOverlapping (pk.used_rectangles ++ pk.free_rectangles)

/-! ## The placement planner (`placement_recommendations`) -/

/-- Request item (pydantic model `Item`); the expiry date is a day number. -/
structure ItemIn where
  itemId : String
  name : String
  width : ℚ
  depth : ℚ
  height : ℚ
  mass : ℚ
  priority : ℤ
  expiryDate : Option ℤ
  usageLimit : Option ℤ
  preferredZone : String
deriving DecidableEq, Repr

/-- Request container (pydantic model `Container`). -/
structure ContainerIn where
  containerId : String
  zone : String
  width : ℚ
  depth : ℚ
  height : ℚ
deriving DecidableEq, Repr

/-- The six rotations tried by `placement_recommendations`, in source
order; each triple is `(item_width, item_height, item_depth)` as passed to
`insert`. -/
def rotationsOf (item : ItemIn) : List (ℚ × ℚ × ℚ) :=
  [(item.width, item.height, item.depth),
   (item.width, item.depth, item.height),
   (item.height, item.width, item.depth),
   (item.height, item.depth, item.width),
   (item.depth, item.width, item.height),
   (item.depth, item.height, item.width)]

/-- `for rot in rotations: rect = bin_packer.insert(...)`, stopping at the
first rotation for which `insert` succeeds. -/
def tryRotations (pk : Packer) (p : ℚ) : List (ℚ × ℚ × ℚ) → Option (Box × Packer)
  | [] => none
  | rot :: rest =>
    match pk.insert rot.1 rot.2.1 rot.2.2 p with
    | some res => some res
    | none => tryRotations pk p rest

/-- Stable insertion into a sorted list: `x` goes in front of the first
element it must strictly precede, hence after all earlier equals. -/
def insertBefore {α : Type} (lt : α → α → Bool) (x : α) : List α → List α
  | [] => [x]
  | y :: ys => if lt x y then x :: y :: ys else y :: insertBefore lt x ys

/-- Stable sort (models Python's stable `sorted` and SQL `ORDER BY`):
`lt a b` means `a` must come strictly before `b`. -/
def stableSortBy {α : Type} (lt : α → α → Bool) (l : List α) : List α :=
  l.foldl (fun acc x => insertBefore lt x acc) []

/-- The planner's item order:
`sorted(items, key=lambda x: (-x.priority, x.width * x.height * x.depth))`. -/
def itemSortLt (a b : ItemIn) : Bool :=
  decide (-a.priority < -b.priority) ||
    (decide (-a.priority = -b.priority) &&
      decide (a.width * a.height * a.depth < b.width * b.height * b.depth))

/-- One placement record returned by the planner; start coordinates are
`(rect['x'], rect['z'], rect['y'])` as `(width, depth, height)`. -/
structure PlacementOut where
  itemId : String
  containerId : String
  startW : ℚ
  startD : ℚ
  startH : ℚ
  endW : ℚ
  endD : ℚ
  endH : ℚ
deriving DecidableEq, Repr

def mkPlacementOut (item : ItemIn) (c : ContainerIn) (rect : Box) : PlacementOut :=
  ⟨item.itemId, c.containerId, rect.x, rect.z, rect.y,
   rect.x + rect.width, rect.z + rect.depth, rect.y + rect.height⟩

/-- Replace the packer stored for a container id. -/
def updatePacker (pm : List (String × Packer)) (cid : String) (pk : Packer) :
    List (String × Packer) :=
  pm.map (fun kv => if kv.1 = cid then (kv.1, pk) else kv)

/-- `for container in preferred_containers + other_containers: ...`,
stopping at the first container whose packer accepts some rotation.  The
`none` lookup branch is unreachable: the packer map holds every request
container. -/
def tryContainers (item : ItemIn) :
    List ContainerIn → List (String × Packer) → Option (PlacementOut × List (String × Packer))
  | [], _ => none
  | c :: rest, pm =>
    match List.lookup c.containerId pm with
    | none => tryContainers item rest pm
    | some pk =>
      match tryRotations pk (item.priority : ℚ) (rotationsOf item) with
      | some (rect, pk') =>
        some (mkPlacementOut item c rect, updatePacker pm c.containerId pk')
      | none => tryContainers item rest pm

/-- Result of `placement_recommendations`. -/
structure PlanResult where
  placements : List PlacementOut
  rearrangements : List ItemIn
deriving DecidableEq, Repr

/-- `placement_recommendations`: one packer per container, items in
`(-priority, volume)` order, preferred-zone containers first; an item no
container accepts falls into the source's `pass` branch and is recorded
nowhere, so `rearrangements` is returned empty. -/
def placementRecommendations (items : List ItemIn) (containers : List ContainerIn) :
    PlanResult :=
  let pm0 := containers.map (fun c => (c.containerId, Packer.init c.width c.height c.depth))
  let sortedItems := stableSortBy itemSortLt items
  let result := sortedItems.foldl
    (fun (st : List (String × Packer) × List PlacementOut) item =>
      let preferred := containers.filter (fun c => c.zone == item.preferredZone)
      let others := containers.filter (fun c => !(c.zone == item.preferredZone))
      match tryContainers item (preferred ++ others) st.1 with
      | some (pl, pm') => (pm', st.2 ++ [pl])
      | none => st)
    (pm0, [])
  ⟨result.2, []⟩

/-! ## The persistent store (`items` table) and lifecycle operations -/

/-- One row of the `items` table, fields in column order (0‥18). -/
structure ItemRow where
  item_id : String
  name : String
  width : ℚ
  depth : ℚ
  height : ℚ
  mass : ℚ
  priority : ℤ
  expiry_date : Option ℤ
  usage_limit : Option ℤ
  remaining_uses : Option ℤ
  preferred_zone : Option String
  container_id : Option String
  position_start_width : Option ℚ
  position_start_depth : Option ℚ
  position_start_height : Option ℚ
  position_end_width : Option ℚ
  position_end_depth : Option ℚ
  position_end_height : Option ℚ
  is_waste : Bool
deriving DecidableEq, Repr

abbrev Store := List ItemRow

/-- SQL `NULLS FIRST` ascending comparison on a nullable column. -/
def optLtQ : Option ℚ → Option ℚ → Bool
  | none, none => false
  | none, some _ => true
  | some _, none => false
  | some a, some b => decide (a < b)

/-- The `ORDER BY position_start_depth ASC, position_start_height ASC,
position_start_width ASC` key of `get_items_in_container`. -/
def retrievalOrderLt (a b : ItemRow) : Bool :=
  optLtQ a.position_start_depth b.position_start_depth ||
    (decide (a.position_start_depth = b.position_start_depth) &&
      (optLtQ a.position_start_height b.position_start_height ||
        (decide (a.position_start_height = b.position_start_height) &&
          optLtQ a.position_start_width b.position_start_width)))

/-- `get_items_in_container`: non-waste rows of one container in
`(d₀, h₀, w₀)` ascending order. -/
def getItemsInContainer (store : Store) (cid : String) : List ItemRow :=
  stableSortBy retrievalOrderLt
    (store.filter (fun it => it.container_id == some cid && !it.is_waste))

structure RetrievalStep where
  step : ℕ
  removeAct : String
  itemId : String
  itemName : String
deriving DecidableEq, Repr

/-- Python `<` on the value of column 11 of two rows.  Column 11 of the
`items` table is `container_id` (a string); the source reads `item[11]`
with the comment `# position_start_depth` and compares with `<`, which in
Python is lexicographic string comparison. -/
def optStrLt : Option String → Option String → Bool
  | some a, some b => decide (a < b)
  | _, _ => false

/-- `calculate_retrieval_steps(container_id, target_item_id)`:
find the target in the ordered container rows, then append a step for every
row whose column-11 value is `<` the target's (`target_depth` in the
source is in fact the target's `container_id`). -/
def calculateRetrievalSteps (store : Store) (cid tid : String) : List RetrievalStep :=
  let items := getItemsInContainer store cid
  match items.find? (fun it => it.item_id == tid) with
  | none => []
  | some target =>
    (items.filter (fun it => optStrLt it.container_id target.container_id)).mapIdx
      (fun n it => ⟨n + 1, "remove", it.item_id, it.name⟩)

/-- Truthiness-and-comparison `item[7] and expiry <= today` used for the
expiry tests (`item[7]` is the `expiry_date` column). -/
def expiryDueB (today : ℤ) : Option ℤ → Bool
  | some e => decide (e ≤ today)
  | none => false

/-- `check_item_expiry`: marks as waste every non-waste row whose expiry is
set and `<=` the REAL current date (`datetime.utcnow().date()`), passed
here as `realToday`. -/
def checkItemExpiry (realToday : ℤ) (store : Store) : Store :=
  store.map (fun it =>
    if expiryDueB realToday it.expiry_date && !it.is_waste then
      { it with is_waste := true }
    else it)

/-- SQL `usage_limit IS NOT NULL AND remaining_uses <= 0` (`NULL <= 0` is
not true). -/
def depletedB : Option ℤ → Option ℤ → Bool
  | some _, some r => decide (r ≤ 0)
  | _, _ => false

/-- `mark_depleted_items`. -/
def markDepletedItems (store : Store) : Store :=
  store.map (fun it =>
    if depletedB it.usage_limit it.remaining_uses && !it.is_waste then
      { it with is_waste := true }
    else it)

/-- The reason string attached to a waste item:
`'Expired' if item[7] and expiry <= utcnow().date() else 'Out of Uses'`. -/
def wasteReason (realToday : ℤ) (it : ItemRow) : String :=
  if expiryDueB realToday it.expiry_date then "Expired" else "Out of Uses"

structure WasteItemOut where
  itemId : String
  name : String
  reason : String
deriving DecidableEq, Repr

/-- `identify_waste` endpoint: run both waste checks against the real
current date, then report all waste rows. -/
def identifyWaste (realToday : ℤ) (store : Store) : Store × List WasteItemOut :=
  let s1 := markDepletedItems (checkItemExpiry realToday store)
  (s1, (s1.filter (fun it => it.is_waste)).map
    (fun it => ⟨it.item_id, it.name, wasteReason realToday it⟩))

/-- `UPDATE items SET remaining_uses = remaining_uses - 1 WHERE item_id`:
the source computes `new_uses = item[9] - 1` with no lower clamp. -/
def decrementUses (store : Store) (iid : String) : Store :=
  store.map (fun it =>
    if it.item_id == iid then
      match it.remaining_uses with
      | some r => { it with remaining_uses := some (r - 1) }
      | none => it
    else it)

/-- `retrieve_item` endpoint: `none` models the 404 on a missing item; on
success the remaining uses are decremented when set. -/
def retrieveItem (store : Store) (iid : String) : Option Store :=
  match store.find? (fun it => it.item_id == iid) with
  | none => none
  | some item =>
    some (if item.remaining_uses.isSome then decrementUses store iid else store)

/-- Python truthiness of an optional string (`None` and `""` are falsy). -/
def truthyStr : Option String → Bool
  | some s => !(s == "")
  | none => false

/-- The lookup of one daily-usage entry: by `itemId` when truthy, else by
`name` (a missing name matches no row, as `name = NULL` does in SQL). -/
def findUsageTarget (store : Store) (iid nm : Option String) : Option ItemRow :=
  if truthyStr iid then store.find? (fun it => it.item_id == iid.getD "")
  else
    match nm with
    | some n => store.find? (fun it => it.name == n)
    | none => none

/-- One usage event from `simulate_day`'s `itemsToBeUsedPerDay` loop
applied to the store only (reporting stripped). -/
def applyUsage (store : Store) (iid nm : Option String) : Store :=
  match findUsageTarget store iid nm with
  | none => store
  | some item =>
    if item.remaining_uses.isSome then decrementUses store item.item_id else store

/-- A usage-decrementing operation: a retrieve call or one daily-usage
entry of a simulate call. -/
inductive UseOp where
  | retrieve (itemId : String)
  | simUse (itemId : Option String) (nm : Option String)
deriving DecidableEq, Repr

def applyUseOp (store : Store) : UseOp → Store
  | .retrieve iid =>
    match retrieveItem store iid with
    | some s => s
    | none => store
  | .simUse iid nm => applyUsage store iid nm

def applyUseOps (store : Store) (ops : List UseOp) : Store :=
  ops.foldl applyUseOp store

/-- The per-item upper half of invariant P5: remaining uses never exceed
the usage limit. -/
def UsesWithinLimit (store : Store) : Prop :=
  ∀ it ∈ store, ∀ l r, it.usage_limit = some l → it.remaining_uses = some r → r ≤ l

/-- Python truthiness of an optional integer (`None` and `0` are falsy). -/
def truthyInt : Option ℤ → Bool
  | some n => !(n == 0)
  | none => false

structure SimulateReq where
  numOfDays : Option ℤ
  toTimestamp : Option ℤ
  itemsToBeUsedPerDay : List (Option String × Option String)
deriving DecidableEq, Repr

structure SimulateOut where
  newDate : ℤ
  itemsUsed : List (String × String × Option ℤ)
  itemsExpired : List (String × String)
  itemsDepletedToday : List (String × String)
  store : Store
deriving DecidableEq, Repr

/-- One iteration of `simulate_day`'s usage loop, threading the store and
the `items_used` / `items_depleted` reports. -/
def simUsageStep (acc : Store × List (String × String × Option ℤ) × List (String × String))
    (entry : Option String × Option String) :
    Store × List (String × String × Option ℤ) × List (String × String) :=
  let (store, used, depleted) := acc
  match findUsageTarget store entry.1 entry.2 with
  | none => (store, used, depleted)
  | some item =>
    match item.remaining_uses with
    | some r =>
      let newUses := r - 1
      ((decrementUses store item.item_id),
        used ++ [(item.item_id, item.name, some newUses)],
        if newUses ≤ 0 then depleted ++ [(item.item_id, item.name)] else depleted)
    | none => (store, used ++ [(item.item_id, item.name, none)], depleted)

/-- `simulate_day` endpoint.  `realToday` is `datetime.utcnow()`; the new
date comes from `numOfDays` (when truthy) or `toTimestamp`, otherwise the
endpoint errors (`none`).  Expiry marking calls `check_item_expiry`, which
compares against the REAL current date; only the report query
`expiry_date <= new_date` sees the simulated date. -/
def simulateDay (realToday : ℤ) (store : Store) (req : SimulateReq) : Option SimulateOut :=
  let newDate? : Option ℤ :=
    if truthyInt req.numOfDays then some (realToday + req.numOfDays.getD 0)
    else if req.toTimestamp.isSome then req.toTimestamp
    else none
  match newDate? with
  | none => none
  | some newDate =>
    let folded := req.itemsToBeUsedPerDay.foldl simUsageStep (store, [], [])
    let s2 := checkItemExpiry realToday folded.1
    some ⟨newDate, folded.2.1,
      (s2.filter (fun it => it.is_waste && expiryDueB newDate it.expiry_date)).map
        (fun it => (it.item_id, it.name)),
      folded.2.2, s2⟩

/-- A manual-place request (`PlaceRequest` with its `Position`). -/
structure PlaceReq where
  itemId : String
  containerId : String
  startW : ℚ
  startD : ℚ
  startH : ℚ
  endW : ℚ
  endD : ℚ
  endH : ℚ
deriving DecidableEq, Repr

/-- `place_item` endpoint: a single unconditional `UPDATE ... WHERE
item_id = ?` — no containment or overlap validation — then `success`. -/
def placeItem (store : Store) (req : PlaceReq) : Bool × Store :=
  (true, store.map (fun it =>
    if it.item_id == req.itemId then
      { it with
        container_id := some req.containerId
        position_start_width := some req.startW
        position_start_depth := some req.startD
        position_start_height := some req.startH
        position_end_width := some req.endW
        position_end_depth := some req.endD
        position_end_height := some req.endH }
    else it))

/-- The occupied box of a row, read off the position columns (0 when a
coordinate is missing); used only to state geometric facts about stores. -/
def rowBox (it : ItemRow) : Box :=
  ⟨it.position_start_width.getD 0, it.position_start_height.getD 0,
   it.position_start_depth.getD 0,
   it.position_end_width.getD 0 - it.position_start_width.getD 0,
   it.position_end_height.getD 0 - it.position_start_height.getD 0,
   it.position_end_depth.getD 0 - it.position_start_depth.getD 0⟩

structure ReturnItemOut where
  itemId : String
  name : String
  reason : String
deriving DecidableEq, Repr

/-- One move step of the return plan.  The source fills `fromContainer`
with `item[12]` — the `position_start_width` column, a float — so the
field is numeric here. -/
structure ReturnStepOut where
  step : ℕ
  itemId : String
  itemName : String
  fromContainerW : ℚ
  toContainer : String
deriving DecidableEq, Repr

structure ReturnPlanOut where
  returnPlan : List ReturnStepOut
  retrievalSteps : List RetrievalStep
  returnItems : List ReturnItemOut
  totalVolume : ℚ
  totalWeight : ℚ
deriving DecidableEq, Repr

/-- `ORDER BY mass DESC`. -/
def massDescLt (a b : ItemRow) : Bool := decide (b.mass < a.mass)

/-- Python truthiness of an optional float (`None` and `0.0` are falsy). -/
def truthyQ : Option ℚ → Bool
  | some q => !(decide (q = 0))
  | none => false

/-- `waste_return_plan` endpoint.  The inclusion walk reads `item[6]` —
the `priority` column — as the item's weight, both in the bound test
`total_weight + item[6] > request.maxWeight` and in the accumulation
`total_weight += item[6]`.  The `if item[12]:` guard of the move step and
its `fromContainer` value also read column 12, `position_start_width`, not
the container id.  The retrieval-step loop likewise passes `item[12]` as
a container id; that float matches no `container_id` string, so
`calculate_retrieval_steps` finds no rows and no retrieval step is ever
produced: the list is empty. -/
def wasteReturnPlan (realToday : ℤ) (maxWeight : ℚ) (undockingContainerId : String)
    (store : Store) : ReturnPlanOut :=
  let wasteItems := stableSortBy massDescLt (store.filter (fun it => it.is_waste))
  let folded := wasteItems.foldl
    (fun (st : ℚ × List ReturnItemOut × List ReturnStepOut) item =>
      if maxWeight < st.1 + (item.priority : ℚ) then st
      else
        (st.1 + (item.priority : ℚ),
          st.2.1 ++ [⟨item.item_id, item.name, wasteReason realToday item⟩],
          if truthyQ item.position_start_width then
            st.2.2 ++ [⟨st.2.2.length + 1, item.item_id, item.name,
              item.position_start_width.getD 0, undockingContainerId⟩]
          else st.2.2))
    (0, [], [])
  ⟨folded.2.2, [], folded.2.1,
   wasteItems.foldl (fun acc it => acc + it.width * it.depth * it.height) 0,
   folded.1⟩

/-- The mass column of the row with the given id (0 if absent). -/
def massOfItem (store : Store) (iid : String) : ℚ :=
  match store.find? (fun it => it.item_id == iid) with
  | some it => it.mass
  | none => 0

/-- Total mass of the items a return plan includes. -/
def includedMass (store : Store) (out : ReturnPlanOut) : ℚ :=
  (out.returnItems.map (fun ri => massOfItem store ri.itemId)).sum

/-! ## Concrete instances used as witnesses and counterexamples -/

/-- Two insertions into a `4 × 4 × 4` container. -/
def demoInsOps : List InsOp := [⟨2, 2, 2, 9⟩, ⟨4, 2, 2, 5⟩]

/-- The packer state of a `4 × 4 × 4` container after inserting a
`2 × 2 × 2` box at the origin. -/
def c3Packer : Packer :=
  ⟨4, 4, 4, [⟨0, 0, 0, 2, 2, 2⟩],
    [⟨2, 0, 0, 2, 2, 2⟩, ⟨0, 2, 0, 4, 2, 2⟩, ⟨0, 0, 2, 4, 4, 2⟩]⟩

/-- An incoming `2 × 4 × 2` item (width 2, depth 4, height 2). -/
def c3Item : ItemIn :=
  { itemId := "B", name := "item B", width := 2, depth := 4, height := 2,
    mass := 1, priority := 5, expiryDate := none, usageLimit := none,
    preferredZone := "A" }

/-- The packer state after `c3Packer` additionally accepts `c3Item` with
rotation `(2, 4, 2)`. -/
def c3Packer2 : Packer :=
  ⟨4, 4, 4, [⟨0, 0, 0, 2, 2, 2⟩, ⟨0, 0, 2, 2, 4, 2⟩],
    [⟨2, 0, 0, 2, 2, 2⟩, ⟨0, 2, 0, 4, 2, 2⟩]⟩

/-- An item too large for every rotation in a `10 × 10 × 10` container. -/
def c4Big : ItemIn :=
  { itemId := "big", name := "oversize item", width := 20, depth := 20, height := 20,
    mass := 5, priority := 50, expiryDate := none, usageLimit := none,
    preferredZone := "A" }

/-- A small item that fits easily. -/
def c4Small : ItemIn :=
  { itemId := "small", name := "small item", width := 2, depth := 2, height := 2,
    mass := 1, priority := 40, expiryDate := none, usageLimit := none,
    preferredZone := "A" }

def c4Container : ContainerIn :=
  { containerId := "C1", zone := "A", width := 10, depth := 10, height := 10 }

/-- A stored row with a usage limit of 1 and one remaining use. -/
def c6Item : ItemRow :=
  { item_id := "X", name := "gauge", width := 1, depth := 1, height := 1,
    mass := 1, priority := 50, expiry_date := none, usage_limit := some 1,
    remaining_uses := some 1, preferred_zone := some "A", container_id := none,
    position_start_width := none, position_start_depth := none,
    position_start_height := none, position_end_width := none,
    position_end_depth := none, position_end_height := none, is_waste := false }

/-- A waste row of the given id and mass (priority 1, unplaced). -/
def mkWasteRow (iid : String) (m : ℚ) : ItemRow :=
  { item_id := iid, name := iid, width := 1, depth := 1, height := 1,
    mass := m, priority := 1, expiry_date := none, usage_limit := some 1,
    remaining_uses := some 0, preferred_zone := none, container_id := none,
    position_start_width := none, position_start_depth := none,
    position_start_height := none, position_end_width := none,
    position_end_depth := none, position_end_height := none, is_waste := true }

/-- Waste items of masses 30, 20, 15 and 5 kg (stored unsorted). -/
def c7Store : Store :=
  [mkWasteRow "w15" 15, mkWasteRow "w30" 30, mkWasteRow "w5" 5, mkWasteRow "w20" 20]

/-- The return plan computed for `c7Store` with `maxWeight = 40`. -/
def c7Out : ReturnPlanOut := wasteReturnPlan 0 40 "undock" c7Store

/-- A non-waste row expiring on day 10. -/
def c8Item : ItemRow :=
  { item_id := "E", name := "expiring item", width := 1, depth := 1, height := 1,
    mass := 1, priority := 50, expiry_date := some 10, usage_limit := none,
    remaining_uses := none, preferred_zone := some "A", container_id := none,
    position_start_width := none, position_start_depth := none,
    position_start_height := none, position_end_width := none,
    position_end_depth := none, position_end_height := none, is_waste := false }

def c8Store : Store := [c8Item]

/-- A row already occupying the box `(0,0,0)–(10,10,10)` of container C1. -/
def c9ItemA : ItemRow :=
  { item_id := "A", name := "item A", width := 10, depth := 10, height := 10,
    mass := 1, priority := 50, expiry_date := none, usage_limit := none,
    remaining_uses := none, preferred_zone := some "A", container_id := some "C1",
    position_start_width := some 0, position_start_depth := some 0,
    position_start_height := some 0, position_end_width := some 10,
    position_end_depth := some 10, position_end_height := some 10,
    is_waste := false }

/-- An unplaced row. -/
def c9ItemB : ItemRow :=
  { item_id := "B", name := "item B", width := 10, depth := 10, height := 10,
    mass := 1, priority := 50, expiry_date := none, usage_limit := none,
    remaining_uses := none, preferred_zone := some "A", container_id := none,
    position_start_width := none, position_start_depth := none,
    position_start_height := none, position_end_width := none,
    position_end_depth := none, position_end_height := none, is_waste := false }

def c9Store : Store := [c9ItemA, c9ItemB]

/-- A manual-place request that would put item B exactly on top of item
A's occupied box. -/
def c9Req : PlaceReq :=
  { itemId := "B", containerId := "C1", startW := 0, startD := 0, startH := 0,
    endW := 10, endD := 10, endH := 10 }

/-- The row of item B after the conflicting manual place is accepted. -/
def c9PlacedB : ItemRow :=
  { c9ItemB with
    container_id := some "C1"
    position_start_width := some 0
    position_start_depth := some 0
    position_start_height := some 0
    position_end_width := some 10
    position_end_depth := some 10
    position_end_height := some 10 }

/-! ## Basic geometric lemmas -/

theorem overlaps_symm {a b : Box} (h : Overlaps a b) : Overlaps b a := by
  obtain ⟨h1, h2, h3⟩ := h
  exact ⟨by rw [max_comm, min_comm]; exact h1,
         by rw [max_comm, min_comm]; exact h2,
         by rw [max_comm, min_comm]; exact h3⟩

theorem nonOverlapping_symm {a b : Box} (h : NonOverlapping a b) : NonOverlapping b a :=
  fun hc => h (overlaps_symm hc)

/-- Growing a box preserves interior overlap with a third box. -/
theorem subBox_overlaps {b f c : Box} (hsub : SubBox b f) (h : Overlaps b c) :
    Overlaps f c := by
  obtain ⟨s1, s2, s3, s4, s5, s6⟩ := hsub
  obtain ⟨h1, h2, h3⟩ := h
  refine ⟨?_, ?_, ?_⟩
  · exact lt_of_le_of_lt (max_le_max s1 le_rfl)
      (lt_of_lt_of_le h1 (min_le_min s2 le_rfl))
  · exact lt_of_le_of_lt (max_le_max s3 le_rfl)
      (lt_of_lt_of_le h2 (min_le_min s4 le_rfl))
  · exact lt_of_le_of_lt (max_le_max s5 le_rfl)
      (lt_of_lt_of_le h3 (min_le_min s6 le_rfl))

theorem nonOverlapping_sub_left {b f c : Box} (hsub : SubBox b f)
    (h : NonOverlapping f c) : NonOverlapping b c :=
  fun hc => h (subBox_overlaps hsub hc)

theorem nonOverlapping_sub_right {b f c : Box} (hsub : SubBox b f)
    (h : NonOverlapping c f) : NonOverlapping c b :=
  fun hc => h (overlaps_symm (subBox_overlaps hsub (overlaps_symm hc)))

/-- Boxes meeting only at an x-boundary have disjoint interiors. -/
theorem nonOverlapping_of_le_x {a b : Box} (h : a.x + a.width ≤ b.x) :
    NonOverlapping a b := by
  rintro ⟨h1, -, -⟩
  have hm1 : min (a.x + a.width) (b.x + b.width) ≤ a.x + a.width := min_le_left _ _
  have hm2 : b.x ≤ max a.x b.x := le_max_right _ _
  linarith

/-- Boxes meeting only at a y-boundary have disjoint interiors. -/
theorem nonOverlapping_of_le_y {a b : Box} (h : a.y + a.height ≤ b.y) :
    NonOverlapping a b := by
  rintro ⟨-, h2, -⟩
  have hm1 : min (a.y + a.height) (b.y + b.height) ≤ a.y + a.height := min_le_left _ _
  have hm2 : b.y ≤ max a.y b.y := le_max_right _ _
  linarith

/-- Boxes meeting only at a z-boundary have disjoint interiors. -/
theorem nonOverlapping_of_le_z {a b : Box} (h : a.z + a.depth ≤ b.z) :
    NonOverlapping a b := by
  rintro ⟨-, -, h3⟩
  have hm1 : min (a.z + a.depth) (b.z + b.depth) ≤ a.z + a.depth := min_le_left _ _
  have hm2 : b.z ≤ max a.z b.z := le_max_right _ _
  linarith

/-! ## Lemmas about the candidate scan -/

theorem selectAux_spec (iw ih idp p : ℚ) :
    ∀ (rest pre : List Box) (best : Option (ℕ × Box)),
      SelectSpec iw ih idp p pre best →
      SelectSpec iw ih idp p (pre ++ rest) (selectAux iw ih idp p pre.length best rest) := by
  intro rest
  induction rest with
  | nil =>
    intro pre best hbest
    simpa [selectAux] using hbest
  | cons f rest' ihr =>
    intro pre best hbest
    have hlen : (pre ++ [f]).length = pre.length + 1 := by simp
    have hassoc : (pre ++ [f]) ++ rest' = pre ++ (f :: rest') := by simp
    by_cases hcond : FitsRect f iw ih idp ∧ StrictlyBetter p f best
    · have step : selectAux iw ih idp p pre.length best (f :: rest') =
          selectAux iw ih idp p (pre.length + 1) (some (pre.length, f)) rest' := by
        simp [selectAux, hcond]
      rw [step, ← hassoc, ← hlen]
      apply ihr
      obtain ⟨hfit, hbetter⟩ := hcond
      refine ⟨?_, hfit, ?_, ?_⟩
      · rw [List.getElem?_append_right (le_refl pre.length)]
        simp
      · intro g hg hgfit
        rcases List.mem_append.mp hg with hg | hg
        · match best, hbest with
          | none, hbest => exact absurd hgfit (hbest g hg)
          | some (jb, fb), hbest =>
            have h1 : scoreByPriority f p < scoreByPriority fb p := hbetter
            exact le_of_lt (lt_of_lt_of_le h1 (hbest.2.2.1 g hg hgfit))
        · simp only [List.mem_singleton] at hg
          subst hg; exact le_rfl
      · intro j hj g hgget hgfit
        have hj' : j < pre.length := hj
        rw [List.getElem?_append_left hj'] at hgget
        have hgmem : g ∈ pre := List.getElem?_mem hgget
        match best, hbest with
        | none, hbest => exact absurd hgfit (hbest g hgmem)
        | some (jb, fb), hbest =>
          exact lt_of_lt_of_le hbetter (hbest.2.2.1 g hgmem hgfit)
    · have step : selectAux iw ih idp p pre.length best (f :: rest') =
          selectAux iw ih idp p (pre.length + 1) best rest' := by
        simp [selectAux, hcond]
      rw [step, ← hassoc, ← hlen]
      apply ihr
      match best, hbest with
      | none, hbest =>
        intro g hg
        rcases List.mem_append.mp hg with hg | hg
        · exact hbest g hg
        · simp only [List.mem_singleton] at hg
          subst hg
          intro hfit
          exact hcond ⟨hfit, trivial⟩
      | some (jb, fb), hbest =>
        obtain ⟨hget, hfitb, hle, hlt⟩ := hbest
        have hjb : jb < pre.length := (List.getElem?_eq_some_iff.mp hget).1
        refine ⟨?_, hfitb, ?_, ?_⟩
        · rw [List.getElem?_append_left hjb]; exact hget
        · intro g hg hgfit
          rcases List.mem_append.mp hg with hg | hg
          · exact hle g hg hgfit
          · simp only [List.mem_singleton] at hg
            subst hg
            by_contra hnot
            exact hcond ⟨hgfit, lt_of_not_ge fun hge => hnot hge⟩
        · intro j hj g hgget hgfit
          rw [List.getElem?_append_left (lt_trans hj hjb)] at hgget
          exact hlt j hj g hgget hgfit

theorem selectBest_spec (free : List Box) (iw ih idp p : ℚ) :
    SelectSpec iw ih idp p free (selectBest free iw ih idp p) := by
  have h := selectAux_spec iw ih idp p free [] none (by intro g hg; cases hg)
  simpa [selectBest] using h

theorem selectBest_some (free : List Box) (iw ih idp p : ℚ) {i : ℕ} {f : Box}
    (h : selectBest free iw ih idp p = some (i, f)) :
    free[i]? = some f ∧ FitsRect f iw ih idp := by
  have hs := selectBest_spec free iw ih idp p
  rw [h] at hs
  exact ⟨hs.1, hs.2.1⟩

theorem selectBest_none (free : List Box) (iw ih idp p : ℚ)
    (h : selectBest free iw ih idp p = none) :
    ∀ g ∈ free, ¬ FitsRect g iw ih idp := by
  have hs := selectBest_spec free iw ih idp p
  rwa [h] at hs

/-! ## The packer invariant -/

theorem subBox_newRect {f : Box} {iw ih idp : ℚ} (hfit : FitsRect f iw ih idp) :
    SubBox ⟨f.x, f.y, f.z, iw, ih, idp⟩ f := by
  obtain ⟨h1, h2, h3⟩ := hfit
  exact ⟨le_rfl, by simpa using h1, le_rfl, by simpa using h2, le_rfl, by simpa using h3⟩

theorem subBox_resW {f : Box} {iw ih idp : ℚ} (hfit : FitsRect f iw ih idp)
    (h0 : 0 ≤ iw) : SubBox (resW f iw ih idp) f := by
  obtain ⟨h1, h2, h3⟩ := hfit
  refine ⟨?_, ?_, ?_, ?_, ?_, ?_⟩ <;> (simp [resW]; try linarith)

theorem subBox_resH {f : Box} {iw ih idp : ℚ} (hfit : FitsRect f iw ih idp)
    (h0 : 0 ≤ ih) : SubBox (resH f iw ih idp) f := by
  obtain ⟨h1, h2, h3⟩ := hfit
  refine ⟨?_, ?_, ?_, ?_, ?_, ?_⟩ <;> (simp [resH]; try linarith)

theorem subBox_resD {f : Box} {iw ih idp : ℚ} (hfit : FitsRect f iw ih idp)
    (h0 : 0 ≤ idp) : SubBox (resD f iw ih idp) f := by
  obtain ⟨h1, h2, h3⟩ := hfit
  refine ⟨?_, ?_, ?_, ?_, ?_, ?_⟩ <;> (simp [resD]; try linarith)

/-- The freshly placed box and the three residuals of its guillotine split
have pairwise disjoint interiors (they share only boundary planes). -/
theorem pairwise_newRect_residuals (f : Box) (iw ih idp : ℚ) :
    List.Pairwise NonOverlapping
      [(⟨f.x, f.y, f.z, iw, ih, idp⟩ : Box),
        resW f iw ih idp, resH f iw ih idp, resD f iw ih idp] := by
  refine List.Pairwise.cons ?_ (List.Pairwise.cons ?_ (List.Pairwise.cons ?_ ?_))
  · intro b hb
    simp only [List.mem_cons, List.not_mem_nil, or_false] at hb
    rcases hb with rfl | rfl | rfl
    · exact nonOverlapping_of_le_x (by simp [resW])
    · exact nonOverlapping_of_le_y (by simp [resH])
    · exact nonOverlapping_of_le_z (by simp [resD])
  · intro b hb
    simp only [List.mem_cons, List.not_mem_nil, or_false] at hb
    rcases hb with rfl | rfl
    · exact nonOverlapping_of_le_y (by simp [resW, resH])
    · exact nonOverlapping_of_le_z (by simp [resW, resD])
  · intro b hb
    simp only [List.mem_cons, List.not_mem_nil, or_false] at hb
    rcases hb with rfl
    exact nonOverlapping_of_le_z (by simp [resH, resD])
  · simp

/-- From a pairwise-disjoint list, the element at index `i` is disjoint
from everything that survives erasing index `i`. -/
theorem pairwise_rel_eraseIdx {α : Type} (R : α → α → Prop)
    (hsymm : ∀ a b : α, R a b → R b a) :
    ∀ (l : List α) (i : ℕ) (f : α), List.Pairwise R l → l[i]? = some f →
      ∀ a ∈ l.eraseIdx i, R f a := by
  intro l
  induction l with
  | nil => intro i f _ hget; simp at hget
  | cons x xs ihl =>
    intro i f hp hget a ha
    rcases List.pairwise_cons.mp hp with ⟨hx, hxs⟩
    cases i with
    | zero =>
      simp only [List.getElem?_cons_zero, Option.some.injEq] at hget
      subst hget
      simp only [List.eraseIdx_cons_zero] at ha
      exact hx a ha
    | succ j =>
      simp only [List.getElem?_cons_succ] at hget
      have hfmem : f ∈ xs := List.getElem?_mem hget
      simp only [List.eraseIdx_cons_succ] at ha
      rcases List.mem_cons.mp ha with h | h
      · subst h; exact hsymm _ _ (hx f hfmem)
      · exact ihl j f hxs hget a h

/-- The combined list of used rectangles extended by the placed box and
free rectangles with the chosen cuboid replaced by its residuals stays
pairwise disjoint. -/
theorem insert_combined_pairwise {pk : Packer} {iw ih idp p : ℚ} {i : ℕ} {f : Box}
    (hinv : PackInv pk)
    (hsel : selectBest pk.free_rectangles iw ih idp p = some (i, f))
    (residuals : List Box)
    (hressub : ∀ ρ ∈ residuals, SubBox ρ f)
    (hpairw : List.Pairwise NonOverlapping ((⟨f.x, f.y, f.z, iw, ih, idp⟩ : Box) :: residuals)) :
    List.Pairwise NonOverlapping
      ((pk.used_rectangles ++ [⟨f.x, f.y, f.z, iw, ih, idp⟩]) ++
        (pk.free_rectangles.eraseIdx i ++ residuals)) := by
  obtain ⟨hget, hfit⟩ := selectBest_some pk.free_rectangles iw ih idp p hsel
  have hfmem : f ∈ pk.free_rectangles := List.getElem?_mem hget
  have hsubNew : SubBox (⟨f.x, f.y, f.z, iw, ih, idp⟩ : Box) f := subBox_newRect hfit
  obtain ⟨hPU, hPF, hCUF⟩ := List.pairwise_append.mp hinv
  have hEdisj : ∀ a ∈ pk.free_rectangles.eraseIdx i, NonOverlapping f a :=
    pairwise_rel_eraseIdx NonOverlapping (fun a b h => nonOverlapping_symm h)
      pk.free_rectangles i f hPF hget
  apply List.pairwise_append.mpr
  refine ⟨?_, ?_, ?_⟩
  · apply List.pairwise_append.mpr
    refine ⟨hPU, by simp, ?_⟩
    intro a ha b hb
    simp only [List.mem_singleton] at hb
    subst hb
    exact nonOverlapping_sub_right hsubNew (hCUF a ha f hfmem)
  · apply List.pairwise_append.mpr
    refine ⟨List.Pairwise.sublist (List.eraseIdx_sublist _ _) hPF,
      (List.pairwise_cons.mp hpairw).2, ?_⟩
    intro a ha ρ hρ
    exact nonOverlapping_sub_right (hressub ρ hρ) (nonOverlapping_symm (hEdisj a ha))
  · intro a ha b hb
    rcases List.mem_append.mp ha with ha | ha
    · rcases List.mem_append.mp hb with hb | hb
      · exact hCUF a ha b (List.mem_of_mem_eraseIdx hb)
      · exact nonOverlapping_sub_right (hressub b hb) (hCUF a ha f hfmem)
    · simp only [List.mem_singleton] at ha
      subst ha
      rcases List.mem_append.mp hb with hb | hb
      · exact nonOverlapping_sub_left hsubNew (hEdisj b hb)
      · exact (List.pairwise_cons.mp hpairw).1 b hb

/-- Inserting an item with positive oriented dimensions preserves the
pairwise disjointness of all used and free rectangles. -/
theorem insert_preservesInv {pk : Packer} {iw ih idp p : ℚ} {r : Box} {pk' : Packer}
    (hiw : 0 < iw) (hih : 0 < ih) (hidp : 0 < idp)
    (hinv : PackInv pk) (hins : pk.insert iw ih idp p = some (r, pk')) :
    PackInv pk' := by
  rcases hsel : selectBest pk.free_rectangles iw ih idp p with - | ⟨i, f⟩
  · simp [Packer.insert, hsel] at hins
  obtain ⟨hget, hfit⟩ := selectBest_some pk.free_rectangles iw ih idp p hsel
  have hi : i < pk.free_rectangles.length := (List.getElem?_eq_some_iff.mp hget).1
  simp only [Packer.insert, hsel, Option.some.injEq, Prod.mk.injEq] at hins
  obtain ⟨hr, hpk⟩ := hins
  have hsubs : ∀ ρ ∈ (if 0 < f.width - iw ∧ 0 < f.height - ih ∧ 0 < f.depth - idp then
      [resW f iw ih idp, resH f iw ih idp, resD f iw ih idp] else []), SubBox ρ f := by
    split
    · intro ρ hρ
      simp only [List.mem_cons, List.not_mem_nil, or_false] at hρ
      rcases hρ with rfl | rfl | rfl
      · exact subBox_resW hfit hiw.le
      · exact subBox_resH hfit hih.le
      · exact subBox_resD hfit hidp.le
    · intro ρ hρ; cases hρ
  have hpairw : List.Pairwise NonOverlapping
      ((⟨f.x, f.y, f.z, iw, ih, idp⟩ : Box) ::
        (if 0 < f.width - iw ∧ 0 < f.height - ih ∧ 0 < f.depth - idp then
          [resW f iw ih idp, resH f iw ih idp, resD f iw ih idp] else [])) := by
    split
    · exact pairwise_newRect_residuals f iw ih idp
    · simp
  have main := insert_combined_pairwise hinv hsel _ hsubs hpairw
  rw [← List.eraseIdx_append_of_lt_length hi] at main
  rw [← hpk]
  exact main

theorem packInv_init (w h d : ℚ) : PackInv (Packer.init w h d) := by
  simp [PackInv, Packer.init]

theorem packInv_step {pk : Packer} {op : InsOp} (hpos : PosDims op)
    (hinv : PackInv pk) : PackInv (stepPacker pk op) := by
  unfold stepPacker
  rcases hins : pk.insert op.iw op.ih op.idp op.p with - | ⟨r, pk'⟩
  · exact hinv
  · exact insert_preservesInv hpos.1 hpos.2.1 hpos.2.2 hinv hins

theorem packInv_runPacker {pk : Packer} (ops : List InsOp)
    (hpos : ∀ op ∈ ops, PosDims op) (hinv : PackInv pk) :
    PackInv (runPacker pk ops) := by
  induction ops generalizing pk with
  | nil => exact hinv
  | cons op rest iho =>
    exact iho (fun o ho => hpos o (List.mem_cons_of_mem _ ho))
      (packInv_step (hpos op (List.mem_cons_self _ _)) hinv)

/-! ## Lemmas about the rotation loop -/

/-- A successful `insert` call decomposes into a successful scan and the
placed box sitting at the chosen rectangle's origin. -/
theorem insert_some_elim {pk : Packer} {iw ih idp p : ℚ} {r : Box} {pk' : Packer}
    (h : pk.insert iw ih idp p = some (r, pk')) :
    ∃ i f, selectBest pk.free_rectangles iw ih idp p = some (i, f) ∧
      r = ⟨f.x, f.y, f.z, iw, ih, idp⟩ := by
  rcases hsel : selectBest pk.free_rectangles iw ih idp p with - | ⟨i, f⟩
  · simp [Packer.insert, hsel] at h
  · simp only [Packer.insert, hsel, Option.some.injEq, Prod.mk.injEq] at h
    exact ⟨i, f, rfl, h.1.symm⟩

/-- The rotation loop commits the first rotation in list order for which
`insert` succeeds; all earlier rotations failed. -/
theorem tryRotations_first {pk : Packer} {p : ℚ} :
    ∀ (rots : List (ℚ × ℚ × ℚ)) (res : Box × Packer),
      tryRotations pk p rots = some res →
      ∃ (k : ℕ) (rot : ℚ × ℚ × ℚ), rots[k]? = some rot ∧
        (∀ (j : ℕ) (rot' : ℚ × ℚ × ℚ), j < k → rots[j]? = some rot' →
          pk.insert rot'.1 rot'.2.1 rot'.2.2 p = none) ∧
        pk.insert rot.1 rot.2.1 rot.2.2 p = some res := by
  intro rots
  induction rots with
  | nil => intro res h; simp [tryRotations] at h
  | cons rot rest ihr =>
    intro res h
    rcases hins : pk.insert rot.1 rot.2.1 rot.2.2 p with - | r0
    · rw [tryRotations, hins] at h
      obtain ⟨k, rot', hget, hprev, hok⟩ := ihr res h
      refine ⟨k + 1, rot', by simpa using hget, ?_, hok⟩
      intro j rot'' hj hget''
      cases j with
      | zero =>
        simp only [List.getElem?_cons_zero, Option.some.injEq] at hget''
        subst hget''
        exact hins
      | succ j' =>
        simp only [List.getElem?_cons_succ] at hget''
        exact hprev j' rot'' (Nat.lt_of_succ_lt_succ hj) hget''
    · rw [tryRotations, hins] at h
      refine ⟨0, rot, by simp, ?_, ?_⟩
      · intro j rot'' hj
        exact absurd hj (Nat.not_lt_zero j)
      · rw [hins]
        exact h

/-! ## Claim C1 -/

/-- C1: for every state reachable by a sequence of successful packer
insertions into an initially empty container (plan placement passes item
dimensions, which are positive), no two placed boxes have overlapping
interiors. -/
theorem c1_placed_boxes_disjoint (w h d : ℚ) (ops : List InsOp)
    (hpos : ∀ op ∈ ops, PosDims op) :
    List.Pairwise NonOverlapping (runPacker (Packer.init w h d) ops).used_rectangles := by
  have hinv := packInv_runPacker ops hpos (packInv_init w h d)
  exact (List.pairwise_append.mp hinv).1

/-- Witness for C1 at a concrete two-insertion run. -/
theorem c1_witness :
    (∀ op ∈ demoInsOps, PosDims op) ∧
    List.Pairwise NonOverlapping
      (runPacker (Packer.init 4 4 4) demoInsOps).used_rectangles :=
  ⟨by norm_num [demoInsOps, PosDims],
   c1_placed_boxes_disjoint 4 4 4 demoInsOps (by norm_num [demoInsOps, PosDims])⟩

/-! ## Claim C10 -/

/-- C10: after any sequence of successful inserts, the free cuboids have
pairwise disjoint interiors and each is disjoint from every placed box —
the free set is never an overlapping over-approximation. -/
theorem c10_free_set_disjoint (w h d : ℚ) (ops : List InsOp)
    (hpos : ∀ op ∈ ops, PosDims op) :
    List.Pairwise NonOverlapping (runPacker (Packer.init w h d) ops).free_rectangles ∧
    ∀ fr ∈ (runPacker (Packer.init w h d) ops).free_rectangles,
      ∀ u ∈ (runPacker (Packer.init w h d) ops).used_rectangles,
        NonOverlapping fr u := by
  have hinv := packInv_runPacker ops hpos (packInv_init w h d)
  obtain ⟨hU, hF, hC⟩ := List.pairwise_append.mp hinv
  exact ⟨hF, fun fr hfr u hu => nonOverlapping_symm (hC u hu fr hfr)⟩

/-- Witness for C10 at a concrete two-insertion run. -/
theorem c10_witness :
    (∀ op ∈ demoInsOps, PosDims op) ∧
    (List.Pairwise NonOverlapping
        (runPacker (Packer.init 4 4 4) demoInsOps).free_rectangles ∧
      ∀ fr ∈ (runPacker (Packer.init 4 4 4) demoInsOps).free_rectangles,
        ∀ u ∈ (runPacker (Packer.init 4 4 4) demoInsOps).used_rectangles,
          NonOverlapping fr u) :=
  ⟨by norm_num [demoInsOps, PosDims],
   c10_free_set_disjoint 4 4 4 demoInsOps (by norm_num [demoInsOps, PosDims])⟩

/-! ## Claim C2 -/

/-- C2 counterexample: inserting a `100 × 50 × 50` box into an empty
`100 × 100 × 100` container leaves an EMPTY free set — the H- and
D-residuals have all-positive sides yet are discarded because the
W-remainder is zero — and a second identical item, which still fits in the
remaining empty volume (witness position `(0, 50, 0)`, inside the
container and disjoint from the placed box), is refused: no free cuboid
advertises a fit. -/
theorem c2_counterexample :
    Packer.insert (Packer.init 100 100 100) 100 50 50 1 =
      some (⟨0, 0, 0, 100, 50, 50⟩,
        ⟨100, 100, 100, [⟨0, 0, 0, 100, 50, 50⟩], []⟩) ∧
    Packer.insert ⟨100, 100, 100, [⟨0, 0, 0, 100, 50, 50⟩], []⟩ 100 50 50 1 = none ∧
    resH ⟨0, 0, 0, 100, 100, 100⟩ 100 50 50 = ⟨0, 50, 0, 100, 50, 50⟩ ∧
    SubBox ⟨0, 50, 0, 100, 50, 50⟩ ⟨0, 0, 0, 100, 100, 100⟩ ∧
    NonOverlapping ⟨0, 50, 0, 100, 50, 50⟩ ⟨0, 0, 0, 100, 50, 50⟩ ∧
    FitsRect ⟨0, 50, 0, 100, 50, 50⟩ 100 50 50 := by
  refine ⟨?_, ?_, ?_, ?_, ?_, ?_⟩
  · norm_num [Packer.insert, Packer.init, selectBest, selectAux, FitsRect,
      StrictlyBetter, resW, resH, resD, List.eraseIdx]
  · norm_num [Packer.insert, selectBest, selectAux, FitsRect, StrictlyBetter]
  · norm_num [resH]
  · norm_num [SubBox]
  · norm_num [NonOverlapping, Overlaps, max_def, min_def]
  · norm_num [FitsRect]

/-- C2 (amended): on a successful insert into chosen free cuboid `F`, the
three guillotine residuals are appended when ALL three remainders are
strictly positive; if any remainder is not positive, NO residual is
appended at all (so residuals with all-positive sides can be discarded),
and in both cases the chosen cuboid is removed. -/
theorem c2_residuals_all_or_nothing {pk : Packer} {iw ih idp p : ℚ} {i : ℕ}
    {f r : Box} {pk' : Packer}
    (hsel : selectBest pk.free_rectangles iw ih idp p = some (i, f))
    (hins : pk.insert iw ih idp p = some (r, pk')) :
    (0 < f.width - iw ∧ 0 < f.height - ih ∧ 0 < f.depth - idp →
      pk'.free_rectangles = pk.free_rectangles.eraseIdx i ++
        [resW f iw ih idp, resH f iw ih idp, resD f iw ih idp]) ∧
    (¬ (0 < f.width - iw ∧ 0 < f.height - ih ∧ 0 < f.depth - idp) →
      pk'.free_rectangles = pk.free_rectangles.eraseIdx i) := by
  have hi : i < pk.free_rectangles.length :=
    (List.getElem?_eq_some_iff.mp
      (selectBest_some pk.free_rectangles iw ih idp p hsel).1).1
  simp only [Packer.insert, hsel, Option.some.injEq, Prod.mk.injEq] at hins
  obtain ⟨-, hpk⟩ := hins
  constructor
  · intro hcond
    rw [← hpk]
    show (pk.free_rectangles ++
        (if 0 < f.width - iw ∧ 0 < f.height - ih ∧ 0 < f.depth - idp then
          [resW f iw ih idp, resH f iw ih idp, resD f iw ih idp]
        else [])).eraseIdx i = _
    rw [if_pos hcond, List.eraseIdx_append_of_lt_length hi]
  · intro hcond
    rw [← hpk]
    show (pk.free_rectangles ++
        (if 0 < f.width - iw ∧ 0 < f.height - ih ∧ 0 < f.depth - idp then
          [resW f iw ih idp, resH f iw ih idp, resD f iw ih idp]
        else [])).eraseIdx i = _
    rw [if_neg hcond, List.append_nil]

/-- Witness for the amended C2 at the degenerate exact-width insert. -/
theorem c2_witness :
    Packer.insert (Packer.init 100 100 100) 100 50 50 1 =
      some (⟨0, 0, 0, 100, 50, 50⟩,
        ⟨100, 100, 100, [⟨0, 0, 0, 100, 50, 50⟩], []⟩) ∧
    ¬ (0 < (100 : ℚ) - 100 ∧ 0 < (100 : ℚ) - 50 ∧ 0 < (100 : ℚ) - 50) ∧
    (⟨100, 100, 100, [⟨0, 0, 0, 100, 50, 50⟩], []⟩ : Packer).free_rectangles =
      (Packer.init 100 100 100).free_rectangles.eraseIdx 0 := by
  have hsel : selectBest (Packer.init 100 100 100).free_rectangles 100 50 50 1 =
      some (0, ⟨0, 0, 0, 100, 100, 100⟩) := by
    norm_num [Packer.init, selectBest, selectAux, FitsRect, StrictlyBetter]
  have hins : Packer.insert (Packer.init 100 100 100) 100 50 50 1 =
      some (⟨0, 0, 0, 100, 50, 50⟩,
        ⟨100, 100, 100, [⟨0, 0, 0, 100, 50, 50⟩], []⟩) := by
    norm_num [Packer.insert, Packer.init, selectBest, selectAux, FitsRect,
      StrictlyBetter, resW, resH, resD, List.eraseIdx]
  have hc : ¬ (0 < (100 : ℚ) - 100 ∧ 0 < (100 : ℚ) - 50 ∧ 0 < (100 : ℚ) - 50) := by
    norm_num
  exact ⟨hins, hc, (c2_residuals_all_or_nothing hsel hins).2 hc⟩

/-! ## Claim C3 -/

/-- C3 counterexample: after a `2 × 2 × 2` box occupies the origin of a
`4 × 4 × 4` container, the incoming item `c3Item` is committed with
rotation `(2, 4, 2)` at depth `z = 2`, although the pair
(free cuboid `⟨0, 2, 0, 4, 2, 2⟩`, rotation `(4, 2, 2)`) also fits and has
a strictly smaller score — so the packer does NOT commit the
score-minimizing (free cuboid, rotation) pair. -/
theorem c3_counterexample :
    Packer.insert (Packer.init 4 4 4) 2 2 2 9 = some (⟨0, 0, 0, 2, 2, 2⟩, c3Packer) ∧
    tryRotations c3Packer (c3Item.priority : ℚ) (rotationsOf c3Item) =
      some (⟨0, 0, 2, 2, 4, 2⟩, c3Packer2) ∧
    ⟨0, 2, 0, 4, 2, 2⟩ ∈ c3Packer.free_rectangles ∧
    (4, 2, 2) ∈ rotationsOf c3Item ∧
    FitsRect ⟨0, 2, 0, 4, 2, 2⟩ 4 2 2 ∧
    scoreByPriority ⟨0, 2, 0, 4, 2, 2⟩ (c3Item.priority : ℚ) <
      scoreByPriority ⟨0, 0, 2, 2, 4, 2⟩ (c3Item.priority : ℚ) := by
  refine ⟨?_, ?_, ?_, ?_, ?_, ?_⟩
  · norm_num [Packer.insert, Packer.init, selectBest, selectAux, FitsRect,
      StrictlyBetter, resW, resH, resD, List.eraseIdx, c3Packer]
  · norm_num [tryRotations, Packer.insert, selectBest, selectAux, FitsRect,
      StrictlyBetter, scoreByPriority, rotationsOf, c3Item, c3Packer, c3Packer2,
      resW, resH, resD, List.eraseIdx]
  · norm_num [c3Packer]
  · norm_num [rotationsOf, c3Item]
  · norm_num [FitsRect]
  · norm_num [scoreByPriority, c3Item]

/-- C3 (amended): for each incoming item the rotations are tried in the
listed order and the FIRST rotation for which some free cuboid fits is
committed; within that rotation the packer picks the fitting free cuboid
of minimal score `0.5·F.z + 0.3·F.x + 0.2·F.y − 0.1·p`, score ties broken
by the earliest position in the free list (not by `F.z`/`F.y`/`F.x`), and
the box is placed at the chosen cuboid's origin. -/
theorem c3_first_fit_rotation_min_score {pk : Packer} {p : ℚ}
    {rots : List (ℚ × ℚ × ℚ)} {res : Box × Packer}
    (h : tryRotations pk p rots = some res) :
    ∃ (k : ℕ) (rot : ℚ × ℚ × ℚ), rots[k]? = some rot ∧
      (∀ (j : ℕ) (rot' : ℚ × ℚ × ℚ), j < k → rots[j]? = some rot' →
        pk.insert rot'.1 rot'.2.1 rot'.2.2 p = none) ∧
      pk.insert rot.1 rot.2.1 rot.2.2 p = some res ∧
      ∃ (i : ℕ) (f : Box),
        selectBest pk.free_rectangles rot.1 rot.2.1 rot.2.2 p = some (i, f) ∧
        SelectSpec rot.1 rot.2.1 rot.2.2 p pk.free_rectangles (some (i, f)) ∧
        res.1 = ⟨f.x, f.y, f.z, rot.1, rot.2.1, rot.2.2⟩ := by
  obtain ⟨k, rot, hget, hprev, hok⟩ := tryRotations_first rots res h
  obtain ⟨r, pk'⟩ := res
  obtain ⟨i, f, hsel, hr⟩ := insert_some_elim hok
  refine ⟨k, rot, hget, hprev, hok, i, f, hsel, ?_, ?_⟩
  · have hs := selectBest_spec pk.free_rectangles rot.1 rot.2.1 rot.2.2 p
    rwa [hsel] at hs
  · simpa using hr

/-- Witness for the amended C3 at the concrete `c3Packer`/`c3Item` run. -/
theorem c3_witness :
    tryRotations c3Packer (c3Item.priority : ℚ) (rotationsOf c3Item) =
      some (⟨0, 0, 2, 2, 4, 2⟩, c3Packer2) ∧
    (∃ (k : ℕ) (rot : ℚ × ℚ × ℚ), (rotationsOf c3Item)[k]? = some rot ∧
      (∀ (j : ℕ) (rot' : ℚ × ℚ × ℚ), j < k → (rotationsOf c3Item)[j]? = some rot' →
        c3Packer.insert rot'.1 rot'.2.1 rot'.2.2 (c3Item.priority : ℚ) = none) ∧
      c3Packer.insert rot.1 rot.2.1 rot.2.2 (c3Item.priority : ℚ) =
        some (⟨0, 0, 2, 2, 4, 2⟩, c3Packer2) ∧
      ∃ (i : ℕ) (f : Box),
        selectBest c3Packer.free_rectangles rot.1 rot.2.1 rot.2.2
          (c3Item.priority : ℚ) = some (i, f) ∧
        SelectSpec rot.1 rot.2.1 rot.2.2 (c3Item.priority : ℚ)
          c3Packer.free_rectangles (some (i, f)) ∧
        ((⟨0, 0, 2, 2, 4, 2⟩ : Box), c3Packer2).1 =
          ⟨f.x, f.y, f.z, rot.1, rot.2.1, rot.2.2⟩) := by
  have h : tryRotations c3Packer (c3Item.priority : ℚ) (rotationsOf c3Item) =
      some (⟨0, 0, 2, 2, 4, 2⟩, c3Packer2) := by
    norm_num [tryRotations, Packer.insert, selectBest, selectAux, FitsRect,
      StrictlyBetter, scoreByPriority, rotationsOf, c3Item, c3Packer, c3Packer2,
      resW, resH, resD, List.eraseIdx]
  exact ⟨h, c3_first_fit_rotation_min_score h⟩

/-! ## Lemmas about the stable sort and the store -/

theorem mem_insertBefore {α : Type} (lt : α → α → Bool) (x a : α) :
    ∀ ys : List α, a ∈ insertBefore lt x ys ↔ a = x ∨ a ∈ ys := by
  intro ys
  induction ys with
  | nil => simp [insertBefore]
  | cons y ys ihy =>
    by_cases h : lt x y
    · simp [insertBefore, h]
    · simp only [insertBefore, h, Bool.false_eq_true, if_false, List.mem_cons, ihy]
      tauto

theorem mem_stableSortBy_aux {α : Type} (lt : α → α → Bool) (a : α) :
    ∀ (l acc : List α),
      (a ∈ l.foldl (fun acc x => insertBefore lt x acc) acc ↔ a ∈ acc ∨ a ∈ l) := by
  intro l
  induction l with
  | nil => simp
  | cons x xs ihx =>
    intro acc
    rw [List.foldl_cons, ihx, mem_insertBefore]
    simp
    tauto

theorem mem_stableSortBy {α : Type} (lt : α → α → Bool) (a : α) (l : List α) :
    a ∈ stableSortBy lt l ↔ a ∈ l := by
  unfold stableSortBy
  rw [mem_stableSortBy_aux]
  simp

/-- Every row returned by `get_items_in_container` carries the queried
container id and is not waste. -/
theorem getItemsInContainer_cid {store : Store} {cid : String} :
    ∀ it ∈ getItemsInContainer store cid, it.container_id = some cid := by
  intro it hit
  unfold getItemsInContainer at hit
  rw [mem_stableSortBy] at hit
  have := List.of_mem_filter hit
  simp only [Bool.and_eq_true, beq_iff_eq] at this
  exact this.1

/-! ## Claim C5 -/

/-- C5 (code bug): `calculate_retrieval_steps` compares column 11 — the
`container_id` string, not `position_start_depth` as the source's comment
says — of each row against the target's with `<`.  All rows of one
container share that string, so the comparison is always false and the
function returns NO steps, for every store, container, and target:
blocking items are never reported. -/
theorem c5_retrieval_steps_always_empty (store : Store) (cid tid : String) :
    calculateRetrievalSteps store cid tid = [] := by
  unfold calculateRetrievalSteps
  rcases hfind : (getItemsInContainer store cid).find? (fun it => it.item_id == tid)
    with - | target
  · simp [hfind]
  · have htmem : target ∈ getItemsInContainer store cid :=
      List.mem_of_find?_eq_some hfind
    have hfilter : (getItemsInContainer store cid).filter
        (fun it => optStrLt it.container_id target.container_id) = [] := by
      rw [List.filter_eq_nil_iff]
      intro it hit
      rw [getItemsInContainer_cid it hit, getItemsInContainer_cid target htmem]
      simp [optStrLt]
    simp [hfind, hfilter]

/-! ## Claim C4 -/

/-- C4 (code bug): no rotation of the oversize item fits the only
container, the batch is not aborted (the small item is still placed), but
the unfitting item is reported NOWHERE: the `pass` branch drops it and the
returned rearrangements list is empty — in fact it is empty on every
input. -/
theorem c4_unplaced_item_not_reported :
    (∀ rot ∈ rotationsOf c4Big,
      ¬ FitsRect ⟨0, 0, 0, c4Container.width, c4Container.height, c4Container.depth⟩
          rot.1 rot.2.1 rot.2.2) ∧
    placementRecommendations [c4Big, c4Small] [c4Container] =
      ⟨[⟨"small", "C1", 0, 0, 0, 2, 2, 2⟩], []⟩ ∧
    ∀ (items : List ItemIn) (containers : List ContainerIn),
      (placementRecommendations items containers).rearrangements = [] := by
  refine ⟨?_, ?_, fun items containers => rfl⟩
  · norm_num [rotationsOf, c4Big, c4Container, FitsRect]
  · norm_num [placementRecommendations, stableSortBy, insertBefore, itemSortLt,
      tryContainers, tryRotations, Packer.insert, selectBest, selectAux, FitsRect,
      StrictlyBetter, scoreByPriority, rotationsOf, mkPlacementOut, updatePacker,
      List.lookup, Packer.init, resW, resH, resD, List.eraseIdx,
      c4Big, c4Small, c4Container]

/-! ## Claim C6 -/

/-- Decrementing never raises remaining uses above the (unchanged) limit. -/
theorem decrementUses_within {store : Store} (h : UsesWithinLimit store)
    (iid : String) : UsesWithinLimit (decrementUses store iid) := by
  intro it hit l r hl hr
  obtain ⟨it0, hit0, rfl⟩ := List.mem_map.mp hit
  by_cases hid : (it0.item_id == iid) = true
  · rcases hru : it0.remaining_uses with - | r0
    · simp only [hid, if_true, hru] at hl hr
      exact h it0 hit0 l r hl (by rw [hru]; exact hr)
    · simp only [hid, if_true, hru, Option.some.injEq] at hl hr
      subst hr
      have := h it0 hit0 l r0 hl hru
      omega
  · simp only [hid, Bool.false_eq_true, if_false] at hl hr
    exact h it0 hit0 l r hl hr

theorem applyUseOp_within {store : Store} (h : UsesWithinLimit store) (op : UseOp) :
    UsesWithinLimit (applyUseOp store op) := by
  cases op with
  | retrieve iid =>
    simp only [applyUseOp, retrieveItem]
    rcases hf : store.find? (fun it => it.item_id == iid) with - | item
    · simp only [hf]; exact h
    · simp only [hf]
      split
      · exact decrementUses_within h iid
      · exact h
  | simUse iid nm =>
    simp only [applyUseOp, applyUsage]
    rcases hf : findUsageTarget store iid nm with - | item
    · simp only [hf]; exact h
    · simp only [hf]
      split
      · exact decrementUses_within h item.item_id
      · exact h

/-- C6 (amended): under any sequence of retrieve and simulate-usage
operations, remaining uses never exceed the usage limit, and each usage
decrement replaces the target row's remaining uses `r` by exactly `r − 1`
— with no lower clamp, so remaining uses CAN drop below zero. -/
theorem c6_uses_le_limit (store : Store) (ops : List UseOp)
    (hwl : UsesWithinLimit store) :
    UsesWithinLimit (applyUseOps store ops) ∧
    ∀ (iid : String) (x : ItemRow), x ∈ store → x.item_id = iid →
      ∀ rx : ℤ, x.remaining_uses = some rx →
        { x with remaining_uses := some (rx - 1) } ∈ decrementUses store iid := by
  constructor
  · unfold applyUseOps
    induction ops generalizing store with
    | nil => exact hwl
    | cons op rest iho => exact iho _ (applyUseOp_within hwl op)
  · intro iid x hx hxid rx hrx
    apply List.mem_map.mpr
    refine ⟨x, hx, ?_⟩
    have hid : (x.item_id == iid) = true := by simpa using hxid
    simp [hid, hrx]

/-- Witness for the amended C6: one retrieve of a 1-use item. -/
theorem c6_witness :
    UsesWithinLimit [c6Item] ∧
    (UsesWithinLimit (applyUseOps [c6Item] [UseOp.retrieve "X"]) ∧
      ∀ (iid : String) (x : ItemRow), x ∈ [c6Item] → x.item_id = iid →
        ∀ rx : ℤ, x.remaining_uses = some rx →
          { x with remaining_uses := some (rx - 1) } ∈ decrementUses [c6Item] iid) := by
  have hwl : UsesWithinLimit [c6Item] := by
    intro it hit l r hl hr
    simp only [List.mem_singleton] at hit
    subst hit
    simp [c6Item] at hl hr
    omega
  exact ⟨hwl, c6_uses_le_limit [c6Item] [UseOp.retrieve "X"] hwl⟩

/-- C6 counterexample: retrieving a limit-1 item twice drives its
remaining uses to −1, below the claimed `[0, usage limit]` interval. -/
theorem c6_counterexample :
    (applyUseOps [c6Item] [UseOp.retrieve "X", UseOp.retrieve "X"]).map
        (fun it => it.remaining_uses) = [some (-1)] ∧
    c6Item.usage_limit = some 1 ∧
    ¬ ((0 : ℤ) ≤ -1) := by
  refine ⟨?_, rfl, by omega⟩
  norm_num [applyUseOps, applyUseOp, retrieveItem, decrementUses, c6Item,
    List.find?]

/-! ## Claim C7 -/

/-- C7 (code bug): the return-plan walk tests and accumulates `item[6]`,
the `priority` column, instead of the mass.  For waste masses
`[30, 20, 15, 5]` (each of priority 1) and `maxWeight = 40` ALL items are
included: the manifest's running weight is 4 (the priority sum) while the
included mass is 70, far above the bound the claim states. -/
theorem c7_weight_bound_violated :
    (c7Out.returnItems.map (fun ri => ri.itemId)) = ["w30", "w20", "w15", "w5"] ∧
    c7Out.totalWeight = 4 ∧
    includedMass c7Store c7Out = 70 ∧
    ¬ (includedMass c7Store c7Out ≤ 40) := by
  have hout : c7Out.returnItems =
      [⟨"w30", "w30", "Out of Uses"⟩, ⟨"w20", "w20", "Out of Uses"⟩,
        ⟨"w15", "w15", "Out of Uses"⟩, ⟨"w5", "w5", "Out of Uses"⟩] ∧
      c7Out.totalWeight = 4 := by
    constructor <;>
    · simp [c7Out, wasteReturnPlan, stableSortBy, insertBefore, massDescLt,
        wasteReason, expiryDueB, mkWasteRow, c7Store]
      try norm_num
  refine ⟨by rw [hout.1]; rfl, hout.2, ?_, ?_⟩ <;>
  · rw [show includedMass c7Store c7Out =
        (c7Out.returnItems.map (fun ri => massOfItem c7Store ri.itemId)).sum from rfl,
      hout.1]
    simp [massOfItem, c7Store, mkWasteRow, List.find?]
    try norm_num

/-! ## Claim C8 -/

/-- C8 (code bug): with the real clock at day 0, an item expiring on day
10 and a simulation to day 11 — past the expiry — the simulate endpoint
marks nothing (expiry is compared against the REAL date, not the simulated
one): the store comes back unchanged, no expiry is reported, and a
subsequent identify-waste call lists no item at all, where the claim
expects the item with reason "Expired". -/
theorem c8_simulated_expiry_not_marked :
    c8Item.expiry_date = some 10 ∧ c8Item.is_waste = false ∧
    simulateDay 0 c8Store ⟨none, some 11, []⟩ = some ⟨11, [], [], [], c8Store⟩ ∧
    (identifyWaste 0 c8Store).2 = [] := by
  refine ⟨rfl, rfl, ?_, ?_⟩
  · simp [simulateDay, truthyInt, checkItemExpiry, expiryDueB, c8Store, c8Item]
  · simp [identifyWaste, markDepletedItems, depletedB, checkItemExpiry,
      expiryDueB, c8Store, c8Item]

/-! ## Claim C9 -/

/-- C9 counterexample: the manual-place request `c9Req` puts item B on a
box overlapping item A's occupied box — the claim requires a Conflict
rejection with the store unchanged — yet the endpoint reports success and
the store IS changed: item B now carries the conflicting placement. -/
theorem c9_counterexample :
    Overlaps ⟨c9Req.startW, c9Req.startH, c9Req.startD,
        c9Req.endW - c9Req.startW, c9Req.endH - c9Req.startH,
        c9Req.endD - c9Req.startD⟩ (rowBox c9ItemA) ∧
    (placeItem c9Store c9Req).1 = true ∧
    (placeItem c9Store c9Req).2 = [c9ItemA, c9PlacedB] ∧
    (placeItem c9Store c9Req).2 ≠ c9Store := by
  refine ⟨?_, rfl, ?_, ?_⟩
  · norm_num [Overlaps, rowBox, c9Req, c9ItemA, max_def, min_def]
  · norm_num [placeItem, c9Store, c9Req, c9ItemA, c9ItemB, c9PlacedB]
  · norm_num [placeItem, c9Store, c9Req, c9ItemA, c9ItemB]
    intro h
    simp at h

/-- C9 (amended): manual place validates nothing: it always reports
success and unconditionally overwrites the placement columns of every row
matching the requested item id. -/
theorem c9_place_unconditional (store : Store) (req : PlaceReq) :
    (placeItem store req).1 = true ∧
    ∀ it ∈ (placeItem store req).2, it.item_id = req.itemId →
      it.container_id = some req.containerId ∧
      it.position_start_width = some req.startW ∧
      it.position_start_depth = some req.startD ∧
      it.position_start_height = some req.startH ∧
      it.position_end_width = some req.endW ∧
      it.position_end_depth = some req.endD ∧
      it.position_end_height = some req.endH := by
  refine ⟨rfl, ?_⟩
  intro it hit hid
  obtain ⟨it0, hit0, rfl⟩ := List.mem_map.mp hit
  by_cases h : (it0.item_id == req.itemId) = true
  · simp [h]
  · simp only [h, Bool.false_eq_true, if_false] at hid ⊢
    exact absurd (by simpa using hid) (by simpa using h)

/-- Witness for the amended C9 at the conflicting concrete request. -/
theorem c9_witness :
    ((c9PlacedB ∈ (placeItem c9Store c9Req).2) ∧ c9PlacedB.item_id = c9Req.itemId) ∧
    ((placeItem c9Store c9Req).1 = true ∧
      c9PlacedB.container_id = some c9Req.containerId ∧
      c9PlacedB.position_start_width = some c9Req.startW ∧
      c9PlacedB.position_start_depth = some c9Req.startD ∧
      c9PlacedB.position_start_height = some c9Req.startH ∧
      c9PlacedB.position_end_width = some c9Req.endW ∧
      c9PlacedB.position_end_depth = some c9Req.endD ∧
      c9PlacedB.position_end_height = some c9Req.endH) := by
  have hmem : c9PlacedB ∈ (placeItem c9Store c9Req).2 := by
    norm_num [placeItem, c9Store, c9Req, c9ItemA, c9ItemB, c9PlacedB]
  have hid : c9PlacedB.item_id = c9Req.itemId := rfl
  exact ⟨⟨hmem, hid⟩, (c9_place_unconditional c9Store c9Req).1,
    (c9_place_unconditional c9Store c9Req).2 c9PlacedB hmem hid⟩

end SpaceStation
